import Mathlib

/-!
Shallow embedding of the Song Model Engine of the `aiguitar` repository:
the zod song schema (`src/lib/songSchema.ts`), the pure song operations
(`src/lib/songModel.ts`), the note/fretboard mapper (`src/lib/noteMapping.ts`),
the MIDI transcriber (`midiToSong`), the rule-based conversational resolver
(`applyMessageToSong` in the chat route), and the GP5 export route
(`src/app/api/export/gp5/route.ts`), together with theorems settling the
spec claims about them.

JavaScript numbers that the schema constrains to integers are modelled as
`Int` (or `Nat` where the source can only produce non-negative values);
optional / possibly-`undefined` values are modelled as `Option`; zod
validation is modelled as a function from typed input records (fields that
may be omitted are `Option`) to an error-path list plus the parsed value.
-/

namespace AiGuitar

/-! ## Data model (the parsed `Song` type, `src/lib/songSchema.ts`) -/

structure TimeSignature where
  beats : Int
  beatType : Int
  deriving DecidableEq, Repr

structure Tuplet where
  inTimeOf : Int
  notes : Int
  deriving DecidableEq, Repr

structure Duration where
  numerator : Int
  denominator : Int
  dotted : Bool
  tuplet : Option Tuplet
  deriving DecidableEq, Repr

/-- Bend descriptor; the source field `type` is a reserved word in Lean and is
called `bendType` here. -/
structure Bend where
  bendType : String
  value : Int
  deriving DecidableEq, Repr

structure NoteEffect where
  slide : Option Bool
  bend : Option Bend
  hammerOn : Option Bool
  pullOff : Option Bool
  vibrato : Option Bool
  palmMute : Option Bool
  letRing : Option Bool
  deriving DecidableEq, Repr

/-- A note; the source field `type` ("note" | "rest") is called `noteType`. -/
structure Note where
  noteType : String
  string : Option Int
  fret : Option Int
  midiPitch : Option Int
  duration : Duration
  velocity : Int
  effects : Option NoteEffect
  deriving DecidableEq, Repr

structure Beat where
  start : Int
  notes : List Note
  chordName : Option String
  text : Option String
  deriving DecidableEq, Repr

structure MeasureHeader where
  timeSignature : Option TimeSignature
  keySignature : Option String
  repeatStart : Option Bool
  repeatEnd : Option Bool
  alternateEnding : Option Int
  marker : Option String
  tripletFeel : Option String
  deriving DecidableEq, Repr

structure Measure where
  index : Int
  header : Option MeasureHeader
  beats : List Beat
  lyrics : Option String
  deriving DecidableEq, Repr

structure Track where
  id : String
  name : String
  instrument : String
  isDrums : Bool
  stringCount : Option Int
  tuning : Option (List Int)
  capo : Int
  volume : Int
  pan : Int
  measures : List Measure
  deriving DecidableEq, Repr

structure SongSection where
  name : String
  startMeasure : Int
  length : Int
  deriving DecidableEq, Repr

structure SongMetadata where
  title : String
  artist : String
  album : Option String
  tempo : Int
  tempoName : Option String
  keySignature : String
  timeSignature : TimeSignature
  version : String
  deriving DecidableEq, Repr

structure Song where
  metadata : SongMetadata
  sections : List SongSection
  tracks : List Track
  draftText : Option String
  chordsBySection : Option (List (String × List String))
  readyForExport : Bool
  deriving DecidableEq, Repr

/-! ## Input records for validation

One constructor field per schema field; a field carrying a zod `.optional()`
or `.default(...)` is an `Option` so that an input may omit it. -/

structure TimeSignatureInput where
  beats : Int
  beatType : Int
  deriving DecidableEq, Repr

structure DurationInput where
  numerator : Int
  denominator : Int
  dotted : Option Bool
  tuplet : Option Tuplet
  deriving DecidableEq, Repr

structure BendInput where
  bendType : String
  value : Int
  deriving DecidableEq, Repr

structure NoteEffectInput where
  slide : Option Bool
  bend : Option BendInput
  hammerOn : Option Bool
  pullOff : Option Bool
  vibrato : Option Bool
  palmMute : Option Bool
  letRing : Option Bool
  deriving DecidableEq, Repr

structure NoteInput where
  noteType : String
  string : Option Int
  fret : Option Int
  midiPitch : Option Int
  duration : DurationInput
  velocity : Option Int
  effects : Option NoteEffectInput
  deriving DecidableEq, Repr

structure BeatInput where
  start : Int
  notes : List NoteInput
  chordName : Option String
  text : Option String
  deriving DecidableEq, Repr

structure MeasureHeaderInput where
  timeSignature : Option TimeSignatureInput
  keySignature : Option String
  repeatStart : Option Bool
  repeatEnd : Option Bool
  alternateEnding : Option Int
  marker : Option String
  tripletFeel : Option String
  deriving DecidableEq, Repr

structure MeasureInput where
  index : Int
  header : Option MeasureHeaderInput
  beats : List BeatInput
  lyrics : Option String
  deriving DecidableEq, Repr

structure TrackInput where
  id : String
  name : String
  instrument : String
  isDrums : Option Bool
  stringCount : Option Int
  tuning : Option (List Int)
  capo : Option Int
  volume : Option Int
  pan : Option Int
  measures : List MeasureInput
  deriving DecidableEq, Repr

structure SongSectionInput where
  name : String
  startMeasure : Int
  length : Int
  deriving DecidableEq, Repr

structure SongMetadataInput where
  title : Option String
  artist : Option String
  album : Option String
  tempo : Option Int
  tempoName : Option String
  keySignature : Option String
  timeSignature : Option TimeSignatureInput
  version : Option String
  deriving DecidableEq, Repr

structure SongInput where
  metadata : SongMetadataInput
  sections : Option (List SongSectionInput)
  tracks : List TrackInput
  draftText : Option String
  chordsBySection : Option (List (String × List String))
  readyForExport : Option Bool
  deriving DecidableEq, Repr

/-! ## Schema validation (`validateSong` / `SongSchema.parse`)

Each validator returns the list of offending field paths (zod issue paths,
rendered as dotted strings) together with the parsed value; `validateSong`
succeeds exactly when the path list is empty. -/

/-- `z.number().int().min(lo).max(hi)` on a required field. -/
def reqBound (path : String) (lo hi v : Int) : List String :=
  if lo ≤ v ∧ v ≤ hi then [] else [path]

/-- `z.number().int().min(lo).max(hi).optional()`. -/
def optBound (path : String) (lo hi : Int) : Option Int → List String
  | none => []
  | some v => reqBound path lo hi v

/-- `z.number().int().min(lo).max(hi).default(d)`: an omitted field takes the
default without a bound check; a present field is bound-checked. -/
def defBound (path : String) (lo hi d : Int) : Option Int → List String × Int
  | none => ([], d)
  | some v => (reqBound path lo hi v, v)

def validateTimeSignature (path : String) (t : TimeSignatureInput) :
    List String × TimeSignature :=
  (reqBound (path ++ ".beats") 1 32 t.beats ++
     reqBound (path ++ ".beatType") 1 32 t.beatType,
   { beats := t.beats, beatType := t.beatType })

def validateDuration (path : String) (d : DurationInput) : List String × Duration :=
  let tupletErrs :=
    match d.tuplet with
    | none => []
    | some t =>
        reqBound (path ++ ".tuplet.inTimeOf") 1 9 t.inTimeOf ++
          reqBound (path ++ ".tuplet.notes") 1 9 t.notes
  (reqBound (path ++ ".numerator") 1 64 d.numerator ++
     reqBound (path ++ ".denominator") 1 64 d.denominator ++ tupletErrs,
   { numerator := d.numerator, denominator := d.denominator,
     dotted := d.dotted.getD false, tuplet := d.tuplet })

def validateBend (path : String) (b : BendInput) : List String × Bend :=
  ((if b.bendType = "bend" ∨ b.bendType = "release" ∨
        b.bendType = "bendRelease" ∨ b.bendType = "prebend"
      then [] else [path ++ ".type"]) ++
     reqBound (path ++ ".value") 0 12 b.value,
   { bendType := b.bendType, value := b.value })

def validateNoteEffect (path : String) (e : NoteEffectInput) :
    List String × NoteEffect :=
  let bendRes : List String × Option Bend :=
    match e.bend with
    | none => ([], none)
    | some b =>
        let r := validateBend (path ++ ".bend") b
        (r.1, some r.2)
  (bendRes.1,
   { slide := e.slide, bend := bendRes.2, hammerOn := e.hammerOn,
     pullOff := e.pullOff, vibrato := e.vibrato, palmMute := e.palmMute,
     letRing := e.letRing })

def validateNote (path : String) (n : NoteInput) : List String × Note :=
  let typeErrs :=
    if n.noteType = "note" ∨ n.noteType = "rest" then [] else [path ++ ".type"]
  let durRes := validateDuration (path ++ ".duration") n.duration
  let velRes := defBound (path ++ ".velocity") 1 127 90 n.velocity
  let effRes : List String × Option NoteEffect :=
    match n.effects with
    | none => ([], none)
    | some e =>
        let r := validateNoteEffect (path ++ ".effects") e
        (r.1, some r.2)
  (typeErrs ++ optBound (path ++ ".string") 1 12 n.string ++
     optBound (path ++ ".fret") 0 36 n.fret ++
     optBound (path ++ ".midiPitch") 0 127 n.midiPitch ++
     durRes.1 ++ velRes.1 ++ effRes.1,
   { noteType := n.noteType, string := n.string, fret := n.fret,
     midiPitch := n.midiPitch, duration := durRes.2, velocity := velRes.2,
     effects := effRes.2 })

/-- Validate the elements of a `z.array(...)`, the element at position `i + j`
getting the path `base ++ "." ++ toString (i + j)` as zod renders array
indices. -/
def validateList (f : String → α → List String × β) (base : String) :
    Nat → List α → List String × List β
  | _, [] => ([], [])
  | i, x :: xs =>
      let r := f (base ++ "." ++ Nat.repr i) x
      let rest := validateList f base (i + 1) xs
      (r.1 ++ rest.1, r.2 :: rest.2)

def validateBeat (path : String) (b : BeatInput) : List String × Beat :=
  let notesRes := validateList validateNote (path ++ ".notes") 0 b.notes
  ((if 0 ≤ b.start then [] else [path ++ ".start"]) ++ notesRes.1,
   { start := b.start, notes := notesRes.2, chordName := b.chordName,
     text := b.text })

def validateMeasureHeader (path : String) (h : MeasureHeaderInput) :
    List String × MeasureHeader :=
  let tsRes : List String × Option TimeSignature :=
    match h.timeSignature with
    | none => ([], none)
    | some t =>
        let r := validateTimeSignature (path ++ ".timeSignature") t
        (r.1, some r.2)
  let tfErrs :=
    match h.tripletFeel with
    | none => []
    | some s =>
        if s = "none" ∨ s = "eighth" ∨ s = "sixteenth" then []
        else [path ++ ".tripletFeel"]
  (tsRes.1 ++ optBound (path ++ ".alternateEnding") 0 8 h.alternateEnding ++ tfErrs,
   { timeSignature := tsRes.2, keySignature := h.keySignature,
     repeatStart := h.repeatStart, repeatEnd := h.repeatEnd,
     alternateEnding := h.alternateEnding, marker := h.marker,
     tripletFeel := h.tripletFeel })

def validateMeasure (path : String) (m : MeasureInput) : List String × Measure :=
  let headerRes : List String × Option MeasureHeader :=
    match m.header with
    | none => ([], none)
    | some h =>
        let r := validateMeasureHeader (path ++ ".header") h
        (r.1, some r.2)
  let beatsRes := validateList validateBeat (path ++ ".beats") 0 m.beats
  ((if 0 ≤ m.index then [] else [path ++ ".index"]) ++ headerRes.1 ++ beatsRes.1,
   { index := m.index, header := headerRes.2, beats := beatsRes.2,
     lyrics := m.lyrics })

def validateTrack (path : String) (t : TrackInput) : List String × Track :=
  let capoRes := defBound (path ++ ".capo") 0 24 0 t.capo
  let volRes := defBound (path ++ ".volume") 0 127 100 t.volume
  let panRes := defBound (path ++ ".pan") 0 127 64 t.pan
  let tuningErrs :=
    match t.tuning with
    | none => []
    | some l => (validateList (fun p v => (reqBound p 0 127 v, v))
        (path ++ ".tuning") 0 l).1
  let measuresRes := validateList validateMeasure (path ++ ".measures") 0 t.measures
  (optBound (path ++ ".stringCount") 1 12 t.stringCount ++ tuningErrs ++
     capoRes.1 ++ volRes.1 ++ panRes.1 ++ measuresRes.1,
   { id := t.id, name := t.name, instrument := t.instrument,
     isDrums := t.isDrums.getD false, stringCount := t.stringCount,
     tuning := t.tuning, capo := capoRes.2, volume := volRes.2,
     pan := panRes.2, measures := measuresRes.2 })

def validateSongSection (path : String) (s : SongSectionInput) :
    List String × SongSection :=
  ((if 0 ≤ s.startMeasure then [] else [path ++ ".startMeasure"]) ++
     (if 1 ≤ s.length then [] else [path ++ ".length"]),
   { name := s.name, startMeasure := s.startMeasure, length := s.length })

def validateMetadata (path : String) (m : SongMetadataInput) :
    List String × SongMetadata :=
  let tempoRes := defBound (path ++ ".tempo") 30 300 120 m.tempo
  let tsRes : List String × TimeSignature :=
    match m.timeSignature with
    | none => ([], { beats := 4, beatType := 4 })
    | some t => validateTimeSignature (path ++ ".timeSignature") t
  (tempoRes.1 ++ tsRes.1,
   { title := m.title.getD "Untitled", artist := m.artist.getD "Unknown Artist",
     album := m.album, tempo := tempoRes.2, tempoName := m.tempoName,
     keySignature := m.keySignature.getD "C", timeSignature := tsRes.2,
     version := m.version.getD "5.00" })

def validateSongAux (i : SongInput) : List String × Song :=
  let mRes := validateMetadata "metadata" i.metadata
  let sRes : List String × List SongSection :=
    match i.sections with
    | none => ([], [])
    | some l => validateList validateSongSection "sections" 0 l
  let tRes := validateList validateTrack "tracks" 0 i.tracks
  (mRes.1 ++ sRes.1 ++ tRes.1,
   { metadata := mRes.2, sections := sRes.2, tracks := tRes.2,
     draftText := i.draftText, chordsBySection := i.chordsBySection,
     readyForExport := i.readyForExport.getD false })

/-- All zod issue paths reported for an input. -/
def songErrors (i : SongInput) : List String := (validateSongAux i).1

/-- The parsed `Song` (only trusted when `songErrors i = []`). -/
def parsedSong (i : SongInput) : Song := (validateSongAux i).2

/-- `validateSong` (`SongSchema.parse`): succeeds with the parsed song when no
field violates its declared shape, otherwise fails with every offending field
path. -/
def validateSong (i : SongInput) : Except (List String) Song :=
  if songErrors i = [] then Except.ok (parsedSong i) else Except.error (songErrors i)

/-! ## Song model operations (`src/lib/songModel.ts`) -/

/-- The maximum measure-list length across the song's tracks
(`song.tracks.reduce((max, track) => Math.max(max, track.measures.length), 0)`). -/
def maxMeasures (song : Song) : Nat :=
  song.tracks.foldl (fun m tr => max m tr.measures.length) 0

/-- One padding measure appended by `ensureMeasureCounts`: the object literal
`{ index: track.measures.length + i, beats: [] }`. -/
def paddingMeasure (idx : Nat) : Measure :=
  { index := Int.ofNat idx, header := none, beats := [], lyrics := none }

/-- The per-track body of `ensureMeasureCounts`: return the track unchanged
when it already has `maxM` measures, otherwise append fresh empty measures
whose indices continue from the current length. -/
def padTrack (maxM : Nat) (tr : Track) : Track :=
  if tr.measures.length = maxM then tr
  else
    { tr with
      measures := tr.measures ++
        (List.range (maxM - tr.measures.length)).map
          (fun i => paddingMeasure (tr.measures.length + i)) }

def ensureMeasureCounts (song : Song) : Song :=
  { song with tracks := song.tracks.map (padTrack (maxMeasures song)) }

def addTrack (song : Song) (track : Track) : Song :=
  ensureMeasureCounts { song with tracks := song.tracks ++ [track] }

/-- `Partial<Song["metadata"]>`: a patch whose present keys override. -/
structure MetadataPatch where
  title : Option String := none
  artist : Option String := none
  album : Option (Option String) := none
  tempo : Option Int := none
  tempoName : Option (Option String) := none
  keySignature : Option String := none
  timeSignature : Option TimeSignature := none
  version : Option String := none
  deriving DecidableEq, Repr

/-- `updateMetadata`: spread-merge of the patch over the current metadata. -/
def updateMetadata (song : Song) (p : MetadataPatch) : Song :=
  { song with
    metadata :=
      { title := p.title.getD song.metadata.title
        artist := p.artist.getD song.metadata.artist
        album := p.album.getD song.metadata.album
        tempo := p.tempo.getD song.metadata.tempo
        tempoName := p.tempoName.getD song.metadata.tempoName
        keySignature := p.keySignature.getD song.metadata.keySignature
        timeSignature := p.timeSignature.getD song.metadata.timeSignature
        version := p.version.getD song.metadata.version } }

def defaultQuarterDuration : Duration :=
  { numerator := 1, denominator := 4, dotted := false, tuplet := none }

/-- The single open-low-string quarter-note beat of `createDefaultMeasure`. -/
def defaultQuarterBeat : Beat :=
  { start := 0
    notes := [{ noteType := "note", string := some 6, fret := some 0,
                midiPitch := none, duration := defaultQuarterDuration,
                velocity := 90, effects := none }]
    chordName := none
    text := none }

def createDefaultMeasure (index : Int) : Measure :=
  { index := index, header := none, beats := [defaultQuarterBeat], lyrics := none }

def createDefaultTrack : Track :=
  { id := "guitar", name := "Guitar", instrument := "Guitar", isDrums := false,
    stringCount := some 6, tuning := some [40, 45, 50, 55, 59, 64], capo := 0,
    volume := 100, pan := 64, measures := [createDefaultMeasure 0] }

/-- `ensureMinimumSong`: repair a zero-track song with one default track, and
fill zero-measure tracks / zero-beat measures with the default pattern.
(`measure.index` is always a number in the typed model, so the
`typeof measure.index === "number"` branch always keeps the index.) -/
def ensureMinimumSong (song : Song) : Song :=
  if song.tracks.isEmpty then { song with tracks := [createDefaultTrack] }
  else
    { song with
      tracks := song.tracks.map (fun tr =>
        if tr.measures.isEmpty then { tr with measures := [createDefaultMeasure 0] }
        else
          { tr with
            measures := tr.measures.map (fun m =>
              { m with
                beats := if m.beats.isEmpty then [defaultQuarterBeat] else m.beats }) }) }

/-- The object literal passed to `validateSong` by `createEmptySong`. -/
def createEmptySongInput : SongInput :=
  { metadata :=
      { title := some "Untitled", artist := some "Unknown Artist", album := none,
        tempo := some 120, tempoName := none, keySignature := some "C",
        timeSignature := some { beats := 4, beatType := 4 }, version := some "5.00" },
    sections := some [], tracks := [], draftText := none,
    chordsBySection := none, readyForExport := none }

/-- The empty song produced by `createEmptySong()`. -/
def emptySong : Song :=
  { metadata :=
      { title := "Untitled", artist := "Unknown Artist", album := none,
        tempo := 120, tempoName := none, keySignature := "C",
        timeSignature := { beats := 4, beatType := 4 }, version := "5.00" },
    sections := [], tracks := [], draftText := none, chordsBySection := none,
    readyForExport := false }

/-! ## Note/fretboard mapper (`src/lib/noteMapping.ts`) -/

def STANDARD_TUNING : List Int := [40, 45, 50, 55, 59, 64]

/-- The `tuning.forEach` loop of `mapMidiToStringFret`: walk the tuning with
its index carrying the current `(bestString, bestFret)` pair, overwriting it
at every string whose fret `midi - openMidi` lies in `[0, 24]`. -/
def mapGo (midi : Int) : List Int → Nat → Nat × Int → Nat × Int
  | [], _, best => best
  | t :: ts, idx, best =>
      mapGo midi ts (idx + 1)
        (if 0 ≤ midi - t ∧ midi - t ≤ 24 then (idx + 1, midi - t) else best)

/-- `mapMidiToStringFret`: last candidate wins; fallback `(string 1, fret 0)`. -/
def mapMidiToStringFret (midi : Int) (tuning : List Int) : Nat × Int :=
  mapGo midi tuning 0 (1, 0)

/-- `defaultTuningForTrack`: `track.tuning?.length ? track.tuning : STANDARD_TUNING`. -/
def defaultTuningForTrack (track : Track) : List Int :=
  match track.tuning with
  | some l => if l.length ≠ 0 then l else STANDARD_TUNING
  | none => STANDARD_TUNING

/-! ## MIDI transcriber (`midiToSong`) -/

structure MidiEvent where
  deltaTime : Nat
  eventType : String
  subtype : Option String
  noteNumber : Option Nat
  velocity : Option Nat
  deriving DecidableEq, Repr

/-- A decoded MIDI file (the part of `parseMidi`'s output that `midiToSong`
reads). -/
structure MidiFile where
  ticksPerBeat : Option Nat
  tracks : List (List MidiEvent)
  deriving DecidableEq, Repr

/-- Replace the element at position `i` by `f` of it (in-place measure / track
mutation in the source). -/
def modifyAt : List α → Nat → (α → α) → List α
  | [], _, _ => []
  | x :: xs, 0, f => f x :: xs
  | x :: xs, n + 1, f => x :: modifyAt xs n f

/-- An empty measure pushed by the transcriber's `while` loop:
`{ index: targetTrack.measures.length, beats: [] }`. -/
def emptyTranscriptionMeasure (idx : Nat) : Measure :=
  { index := Int.ofNat idx, header := none, beats := [], lyrics := none }

/-- Effect of `while (measures.length <= measureIndex) push(empty)`: append
empty measures, indices continuing from the current length, until index `mi`
exists. -/
def growMeasures (ms : List Measure) (mi : Nat) : List Measure :=
  ms ++ (List.range (mi + 1 - ms.length)).map
    (fun k => emptyTranscriptionMeasure (ms.length + k))

/-- The beat object the transcriber pushes for a note-on of pitch `nn` and
velocity `vel` at beat offset `bi` within its measure. -/
def transcribedBeat (tuning : List Int) (bi nn vel : Nat) : Beat :=
  let sf := mapMidiToStringFret (Int.ofNat nn) tuning
  { start := Int.ofNat bi
    notes := [{ noteType := "note", string := some (Int.ofNat sf.1),
                fret := some sf.2, midiPitch := some (Int.ofNat nn),
                duration := defaultQuarterDuration,
                velocity := Int.ofNat vel, effects := none }]
    chordName := none
    text := none }

/-- One iteration of the transcriber's event loop over `(targetTrack,
absolute-tick)` state: accumulate the delta time, ignore everything but
channel note-on events with a nonzero note number and velocity, and append the
transcribed beat into the (possibly grown) measure at the event's measure
index. -/
def stepEvent (tpm tpb : Nat) (tuning : List Int) (st : Track × Nat)
    (e : MidiEvent) : Track × Nat :=
  let absolute := st.2 + e.deltaTime
  let tr := st.1
  if ¬(e.eventType = "channel" ∧ e.subtype = some "noteOn") then (tr, absolute)
  else if e.noteNumber.getD 0 = 0 ∨ e.velocity.getD 0 = 0 then (tr, absolute)
  else
    let nn := e.noteNumber.getD 0
    let measureIndex := absolute / tpm
    let beatIndex := (absolute % tpm) / tpb
    let beat := transcribedBeat tuning beatIndex nn (e.velocity.getD 90)
    ({ tr with
       measures := modifyAt (growMeasures tr.measures measureIndex) measureIndex
         (fun m => { m with beats := m.beats ++ [beat] }) },
     absolute)

/-- Process one source MIDI track's events onto a destination track. -/
def processTrack (tpm tpb : Nat) (tuning : List Int) (tr : Track)
    (events : List MidiEvent) : Track :=
  (events.foldl (stepEvent tpm tpb tuning) (tr, 0)).1

/-- `ensureTrack` of the transcriber module. -/
def ensureTranscriptionTrack (name instrument : String) (isDrums : Bool) : Track :=
  { id := name.toLower, name := name, instrument := instrument, isDrums := isDrums,
    stringCount := if isDrums then none else some 6,
    tuning := if isDrums then none else some [40, 45, 50, 55, 59, 64],
    capo := 0, volume := 100, pan := 64, measures := [] }

/-- `midiToSong`: fixed Guitar/Bass/Drums destination tracks; each source
track beyond the first is folded onto the destination track of the clamped
index. -/
def midiToSong (baseSong : Song) (midi : MidiFile) : Song :=
  let tpb := midi.ticksPerBeat.getD 480
  let tpm := tpb * 4
  let init : List Track :=
    [ensureTranscriptionTrack "Guitar" "Guitar" false,
     ensureTranscriptionTrack "Bass" "Bass" false,
     ensureTranscriptionTrack "Drums" "Drum Kit" true]
  let final :=
    ((midi.tracks.drop 1).enum).foldl
      (fun (tracks : List Track) (p : Nat × List MidiEvent) =>
        let idx := min p.1 (tracks.length - 1)
        match tracks.get? idx with
        | none => tracks
        | some target =>
            modifyAt tracks idx
              (fun _ => processTrack tpm tpb (defaultTuningForTrack target) target p.2))
      init
  { baseSong with tracks := final }

/-! ## Rule-based conversational resolver (`applyMessageToSong` in the chat
route, the revision with the checklist-driven follow-ups)

The JavaScript regular expressions are embedded as character-level matchers
with the engine's leftmost-match, greedy-with-backtracking behaviour. -/

/-- A `\s` whitespace character (the source messages only use plain spaces). -/
def isJsSpace (c : Char) : Bool :=
  c = ' ' ∨ c = '\t' ∨ c = '\n' ∨ c = '\r' ∨ c = Char.ofNat 11 ∨ c = Char.ofNat 12

/-- Match a literal pattern (given lowercase) case-insensitively at the head,
returning the rest on success. -/
def matchCI : List Char → List Char → Option (List Char)
  | [], cs => some cs
  | _ :: _, [] => none
  | p :: ps, c :: cs => if c.toLower = p then matchCI ps cs else none

/-- Does the predicate hold at some suffix (regex scan over start positions)? -/
def scanAny (p : List Char → Bool) : List Char → Bool
  | [] => p []
  | c :: t => p (c :: t) || scanAny p t

/-- `/pat/i.test(msg)` for a literal pattern / `toLowerCase().includes`. -/
def containsSub (cs : List Char) (pat : String) : Bool :=
  scanAny (fun s => (matchCI pat.toList s).isSome) cs

/-- Leftmost match: return the first position's result. -/
def scanFirst (f : List Char → Option α) : List Char → Option α
  | [] => f []
  | c :: t =>
      match f (c :: t) with
      | some v => some v
      | none => scanFirst f t

def digitsVal (ds : List Char) : Nat :=
  ds.foldl (fun a c => a * 10 + (c.toNat - 48)) 0

/-- After the digits of `/(\d{2,3})\s*bpm/i`: greedy `\s*` then `bpm`. -/
def bpmAfter (cs : List Char) : Bool :=
  (matchCI "bpm".toList (cs.dropWhile isJsSpace)).isSome

/-- Try `/(\d{2,3})\s*bpm/i` at the current position: three digits first
(greedy), then two. -/
def tempoAt : List Char → Option Nat
  | d1 :: d2 :: d3 :: rest =>
      if d1.isDigit && d2.isDigit && d3.isDigit && bpmAfter rest then
        some (digitsVal [d1, d2, d3])
      else if d1.isDigit && d2.isDigit && bpmAfter (d3 :: rest) then
        some (digitsVal [d1, d2])
      else none
  | [d1, d2] =>
      if d1.isDigit && d2.isDigit && bpmAfter [] then some (digitsVal [d1, d2])
      else none
  | _ => none

/-- `parseTempo`: leftmost `/(\d{2,3})\s*bpm/i` capture as a number. -/
def parseTempo (message : String) : Option Nat :=
  scanFirst tempoAt message.toList

/-- A `\w` word character. -/
def isWordChar (c : Char) : Bool := c.isAlpha || c.isDigit || c = '_'

/-- `\b` between a last matched character and the rest of the input. -/
def boundaryAfter (lastChar : Char) (rest : List Char) : Bool :=
  match rest with
  | [] => isWordChar lastChar
  | c :: _ => isWordChar lastChar != isWordChar c

/-- `[A-G]` under `/i`. -/
def isNoteLetter (c : Char) : Bool :=
  let l := c.toLower
  'a' ≤ l ∧ l ≤ 'g'

/-- Match a literal case-insensitively, also returning the original-case
consumed characters (for capture groups). -/
def tryLit (lit : String) (s : List Char) : Option (List Char × List Char) :=
  match matchCI lit.toList s with
  | some r => some (s.take lit.length, r)
  | none => none

/-- After `key\s+of\s+` and the note letter `c`, the backtracking
alternatives of `(#|b)?\s?(major|minor)?` in the engine's trial order, each as
(captured characters after the letter, rest of input). -/
def keyTailCandidates (c : Char) (cs1 : List Char) : List (List Char × List Char) :=
  let accOpts : List (List Char × List Char) :=
    (match cs1 with
     | a :: cs2 => if a = '#' ∨ a.toLower = 'b' then [([a], cs2)] else []
     | [] => []) ++ [([], cs1)]
  accOpts.flatMap (fun acc =>
    let spcOpts : List (List Char × List Char) :=
      (match acc.2 with
       | s :: r2 => if isJsSpace s then [([s], r2)] else []
       | [] => []) ++ [([], acc.2)]
    spcOpts.flatMap (fun sp =>
      let wordOpts : List (List Char × List Char) :=
        (tryLit "major" sp.2).toList ++ (tryLit "minor" sp.2).toList ++ [([], sp.2)]
      wordOpts.map (fun w => (c :: (acc.1 ++ sp.1 ++ w.1), w.2))))

/-- First candidate whose end position satisfies the closing `\b`. -/
def firstKeyCandidate : List (List Char × List Char) → Option (List Char)
  | [] => none
  | (cap, rest) :: t =>
      if boundaryAfter (cap.getLastD ' ') rest then some cap
      else firstKeyCandidate t

/-- Try `/\bkey\s+of\s+([A-G](#|b)?\s?(major|minor)?)\b/i` at the current
position, `prev` being the character before it (for the leading `\b`). -/
def keyAt (prev : Option Char) (cs : List Char) : Option (List Char) :=
  if (match prev with | none => true | some p => ¬isWordChar p) then
    match matchCI "key".toList cs with
    | none => none
    | some r1 =>
        let r1d := r1.dropWhile isJsSpace
        if r1d.length = r1.length then none
        else
          match matchCI "of".toList r1d with
          | none => none
          | some r2 =>
              let r2d := r2.dropWhile isJsSpace
              if r2d.length = r2.length then none
              else
                match r2d with
                | [] => none
                | c :: cs1 =>
                    if isNoteLetter c then firstKeyCandidate (keyTailCandidates c cs1)
                    else none
  else none

/-- Scan for the leftmost `keyAt` match, tracking the previous character. -/
def scanKey : Option Char → List Char → Option (List Char)
  | prev, [] =>
      match keyAt prev [] with
      | some cap => some cap
      | none => none
  | prev, c :: t =>
      match keyAt prev (c :: t) with
      | some cap => some cap
      | none => scanKey (some c) t

/-- `.replace(/\s+/g, " ")`: collapse whitespace runs to single spaces. -/
def collapseWs : List Char → List Char
  | [] => []
  | [c] => [if isJsSpace c then ' ' else c]
  | c1 :: c2 :: t =>
      if isJsSpace c1 && isJsSpace c2 then collapseWs (c2 :: t)
      else (if isJsSpace c1 then ' ' else c1) :: collapseWs (c2 :: t)

/-- `.trim()`. -/
def trimWs (cs : List Char) : List Char :=
  ((cs.dropWhile isJsSpace).reverse.dropWhile isJsSpace).reverse

/-- `parseKey`: leftmost capture of the key regex, whitespace-normalized and
trimmed. -/
def parseKey (message : String) : Option String :=
  match scanKey none message.toList with
  | some cap => some (String.mk (trimWs (collapseWs cap)))
  | none => none

/-- Try `/called\s+q([^q]+)q/i` (for a quote character `q`) at the current
position. -/
def quotedAfterCalled (q : Char) (cs : List Char) : Option String :=
  match matchCI "called".toList cs with
  | none => none
  | some r =>
      let rd := r.dropWhile isJsSpace
      if rd.length = r.length then none
      else
        match rd with
        | [] => none
        | c :: t =>
            if c = q then
              let body := t.takeWhile (fun x => ¬(x = q))
              let rest := t.dropWhile (fun x => ¬(x = q))
              if body.isEmpty then none
              else if rest.isEmpty then none
              else some (String.mk body)
            else none

/-- `parseTitle`: first the single-quoted regex over the whole message, then
the double-quoted one. -/
def parseTitle (message : String) : Option String :=
  match scanFirst (quotedAfterCalled (Char.ofNat 39)) message.toList with
  | some t => some t
  | none => scanFirst (quotedAfterCalled '"') message.toList

/-- `hasInstrument`: `message.toLowerCase().includes(instrument)`. -/
def hasInstrument (message : String) (instrument : String) : Bool :=
  containsSub message.toList instrument

/-- The first alternative `generate\s*\.?gp5` of the export-intent regex,
anchored at the current position. -/
def generateGp5At (cs : List Char) : Bool :=
  match matchCI "generate".toList cs with
  | none => false
  | some rest =>
      let r := rest.dropWhile isJsSpace
      let r2 := match r with
        | c :: t => if c = '.' then t else r
        | [] => r
      (matchCI "gp5".toList r2).isSome

/-- `/generate\s*\.?gp5|export|generate file|create gp5/i.test(message)`. -/
def exportIntent (message : String) : Bool :=
  let cs := message.toList
  scanAny generateGp5At cs || containsSub cs "export" ||
    containsSub cs "generate file" || containsSub cs "create gp5"

/-- `buildTrack` of the chat route. -/
def buildTrack (id name instrument : String) (isDrums : Bool) : Track :=
  { id := id, name := name, instrument := instrument, isDrums := isDrums,
    stringCount := if isDrums then none else some 6,
    tuning := if isDrums then none else some [40, 45, 50, 55, 59, 64],
    capo := 0, volume := 100, pan := 64, measures := [] }

structure ChecklistItem where
  id : String
  label : String
  done : Bool
  deriving DecidableEq, Repr

/-- `buildChecklist(song).checklist`. -/
def buildChecklist (song : Song) : List ChecklistItem :=
  [{ id := "title", label := "Song title", done := song.metadata.title ≠ "" },
   { id := "tempo", label := "Tempo (BPM)", done := song.metadata.tempo ≠ 0 },
   { id := "key", label := "Key signature", done := song.metadata.keySignature ≠ "" },
   { id := "tracks", label := "Tracks (guitar/bass/drums)",
     done := ¬song.tracks.isEmpty },
   { id := "measures", label := "At least one measure",
     done := song.tracks.any (fun tr => ¬tr.measures.isEmpty) },
   { id := "beats", label := "At least one beat",
     done := song.tracks.any (fun tr => tr.measures.any (fun m => ¬m.beats.isEmpty)) }]

/-- `buildChecklist(song).missing`. -/
def missingChecklist (song : Song) : List ChecklistItem :=
  (buildChecklist song).filter (fun item => ¬item.done)

/-- `nextChecklistPrompt`: question for the first unsatisfied checklist item. -/
def nextChecklistPrompt (song : Song) : Option String :=
  match (missingChecklist song).head? with
  | none => none
  | some item =>
      some (match item.id with
        | "tracks" => "Which instruments should I include (guitar, bass, drums, synth)?"
        | "tempo" => "What tempo should we use? You can reply like '140 bpm'."
        | "key" => "What key should the song be in?"
        | "measures" => "How many measures should I draft to start?"
        | "beats" => "Should I add a basic beat pattern to the first measure?"
        | _ => "What should I add next?")

/-- Object-spread key update for `chordsBySection`: an existing key is
overwritten in place, a new key is appended. -/
def setChordKey (l : List (String × List String)) (k : String)
    (v : List String) : List (String × List String) :=
  if l.any (fun p => p.1 = k) then
    l.map (fun p => if p.1 = k then (k, v) else p)
  else l ++ [(k, v)]

structure ResolverResult where
  song : Song
  reply : String
  followUps : List String
  deriving DecidableEq, Repr

/-- The deterministic rule-based resolver `applyMessageToSong(song, message)`
(chat route revision with the checklist-driven follow-up list). -/
def applyMessageToSong (song : Song) (message : String) : ResolverResult :=
  let msg := message.toList
  let tempo := parseTempo message
  let key := parseKey message
  let title := parseTitle message
  let wantsChords := containsSub msg "chord"
  let wantsMeasure := containsSub msg "create a measure" || containsSub msg "add a measure"
    || containsSub msg "new measure" || containsSub msg "create a bar"
    || containsSub msg "add a bar"
  let wantsMore := containsSub msg "add more" || containsSub msg "keep refining"
    || containsSub msg "keep going" || containsSub msg "expand"
    || containsSub msg "continue"
  let u1 := match tempo with
    | some t => if t = 0 then song else updateMetadata song { tempo := some (Int.ofNat t) }
    | none => song
  let u2 := match title with
    | some t => if t = "" then u1 else updateMetadata u1 { title := some t }
    | none => u1
  let u3 := match key with
    | some k => if k = "" then u2 else updateMetadata u2 { keySignature := some k }
    | none => u2
  let u4 := if hasInstrument message "drum" && ¬u3.tracks.any (fun t => t.isDrums)
    then addTrack u3 (buildTrack "drums" "Drums" "Drum Kit" true) else u3
  let u5 := if hasInstrument message "bass" && ¬u4.tracks.any (fun t => t.instrument = "Bass")
    then addTrack u4 (buildTrack "bass" "Bass" "Bass" false) else u4
  let u6 := if hasInstrument message "guitar" && ¬u5.tracks.any (fun t => t.instrument = "Guitar")
    then addTrack u5 (buildTrack "guitar" "Guitar" "Guitar" false) else u5
  let u7 := ensureMeasureCounts u6
  let u8 := if wantsMeasure || wantsMore then
      { u7 with
        tracks := u7.tracks.map (fun tr =>
          { tr with
            measures := tr.measures ++
              [createDefaultMeasure (Int.ofNat tr.measures.length)] }) }
    else u7
  let u9 := if wantsChords then
      { u8 with
        chordsBySection :=
          some (setChordKey
            (setChordKey (u8.chordsBySection.getD []) "Chorus" ["D5", "F5", "G5", "Bb5"])
            "Verse" ["D5", "D5", "F5", "G5"]) }
    else u8
  let missing := missingChecklist u9
  let followUps :=
    (if missing.any (fun i => i.id = "tracks") then
       ["Which instruments should I include (guitar, bass, drums, synth)?"] else []) ++
    (if missing.any (fun i => i.id = "tempo") then
       ["What tempo should we use? You can reply like '140 bpm'."] else []) ++
    (if missing.any (fun i => i.id = "key") then
       ["What key should the song be in?"] else []) ++
    (if missing.any (fun i => i.id = "measures") then
       ["How many measures should I draft to start?"] else []) ++
    (if u9.chordsBySection.isNone then
       ["Should I generate chord progressions for the verse and chorus?"] else [])
  let readyForExport := exportIntent message || song.readyForExport
  let reply :=
    if readyForExport then
      "I can generate the GP5 file now. Press 'Generate .GP5 File' when you're ready."
    else
      (nextChecklistPrompt u9).getD
        "Draft updated. Tell me to add chords, riffs, or more measures."
  { song := { u9 with readyForExport := readyForExport }, reply := reply,
    followUps := followUps }

/-! ## GP5 export route (`src/app/api/export/gp5/route.ts`) -/

/-- The document the export route's `POST` forwards to the external GP5
writer: the request body is validated with `validateSong` and then posted to
`GP5_WRITER_URL/write` unchanged — no `ensureMinimumSong` (or any other
repair) is applied on this path. -/
def gp5ExportForwardedSong (body : SongInput) : Except (List String) Song :=
  validateSong body

/-! ## Specification-side helpers and concrete demo inputs -/

/-- String `i` (0-based) is a candidate for `midi` under `tuning`:
`0 <= midi - tuning[i] <= 24`. -/
def candAt (midi : Int) (tuning : List Int) (i : Nat) : Prop :=
  i < tuning.length ∧ 0 ≤ midi - tuning.getD i 0 ∧ midi - tuning.getD i 0 ≤ 24

instance (midi : Int) (tuning : List Int) (i : Nat) :
    Decidable (candAt midi tuning i) := by
  unfold candAt; infer_instance

/-- Index of the last candidate string of the scan, if any. -/
def lastCand (midi : Int) : List Int → Option Nat
  | [] => none
  | t :: ts =>
      match lastCand midi ts with
      | some j => some (j + 1)
      | none => if 0 ≤ midi - t ∧ midi - t ≤ 24 then some 0 else none

/-- A metadata input omitting every (optional / defaulted) field. -/
def emptyMetadataInput : SongMetadataInput :=
  { title := none, artist := none, album := none, tempo := none,
    tempoName := none, keySignature := none, timeSignature := none,
    version := none }

/-- A note input carrying only the required fields. -/
def minimalNoteInput : NoteInput :=
  { noteType := "note", string := none, fret := none, midiPitch := none,
    duration := { numerator := 1, denominator := 4, dotted := none, tuplet := none },
    velocity := none, effects := none }

def minimalBeatInput : BeatInput :=
  { start := 0, notes := [minimalNoteInput], chordName := none, text := none }

def minimalMeasureInput : MeasureInput :=
  { index := 0, header := none, beats := [minimalBeatInput], lyrics := none }

def minimalTrackInput : TrackInput :=
  { id := "guitar", name := "Guitar", instrument := "Guitar", isDrums := none,
    stringCount := none, tuning := none, capo := none, volume := none,
    pan := none, measures := [minimalMeasureInput] }

/-- A song input presenting only required fields (used as the C5 witness). -/
def defaultsProbeInput : SongInput :=
  { metadata := emptyMetadataInput, sections := none, tracks := [minimalTrackInput],
    draftText := none, chordsBySection := none, readyForExport := none }

/-- A song input whose only anomaly is `metadata.tempo = 301`. -/
def tempo301Input : SongInput :=
  { metadata := { emptyMetadataInput with tempo := some 301 }, sections := none,
    tracks := [], draftText := none, chordsBySection := none,
    readyForExport := none }

/-- A song input whose only anomaly is a note velocity of 0. -/
def velocityZeroInput : SongInput :=
  { metadata := emptyMetadataInput, sections := none,
    tracks := [{ minimalTrackInput with
      measures := [{ minimalMeasureInput with
        beats := [{ minimalBeatInput with
          notes := [{ minimalNoteInput with velocity := some 0 }] }] }] }],
    draftText := none, chordsBySection := none, readyForExport := none }

/-- A song input whose note carries `midiPitch = 0` (accepted by the schema). -/
def pitchZeroSongInput : SongInput :=
  { metadata := emptyMetadataInput, sections := none,
    tracks := [{ minimalTrackInput with
      measures := [{ minimalMeasureInput with
        beats := [{ minimalBeatInput with
          notes := [{ minimalNoteInput with
                      midiPitch := some 0
                      velocity := some 100 }] }] }] }],
    draftText := none, chordsBySection := none, readyForExport := none }

/-- All optional (defaulted or omissible) fields of a note input are omitted. -/
def omitsOptionalsNote (n : NoteInput) : Bool :=
  n.string.isNone && n.fret.isNone && n.midiPitch.isNone &&
    n.duration.dotted.isNone && n.duration.tuplet.isNone &&
    n.velocity.isNone && n.effects.isNone

/-- The required fields of a note input satisfy their declared constraints. -/
def requiredOkNote (n : NoteInput) : Bool :=
  (n.noteType == "note" || n.noteType == "rest") &&
    decide (1 ≤ n.duration.numerator ∧ n.duration.numerator ≤ 64) &&
    decide (1 ≤ n.duration.denominator ∧ n.duration.denominator ≤ 64)

def omitsOptionalsBeat (b : BeatInput) : Bool :=
  b.chordName.isNone && b.text.isNone && b.notes.all omitsOptionalsNote

def requiredOkBeat (b : BeatInput) : Bool :=
  decide (0 ≤ b.start) && b.notes.all requiredOkNote

def omitsOptionalsMeasure (m : MeasureInput) : Bool :=
  m.header.isNone && m.lyrics.isNone && m.beats.all omitsOptionalsBeat

def requiredOkMeasure (m : MeasureInput) : Bool :=
  decide (0 ≤ m.index) && m.beats.all requiredOkBeat

def omitsOptionalsTrack (t : TrackInput) : Bool :=
  t.isDrums.isNone && t.stringCount.isNone && t.tuning.isNone &&
    t.capo.isNone && t.volume.isNone && t.pan.isNone &&
    t.measures.all omitsOptionalsMeasure

def requiredOkTrack (t : TrackInput) : Bool :=
  t.measures.all requiredOkMeasure

/-- The input is "missing only optional fields": every optional field is
omitted (so each documented default must be filled in). -/
def omitsOptionals (i : SongInput) : Bool :=
  i.metadata.title.isNone && i.metadata.artist.isNone &&
    i.metadata.album.isNone && i.metadata.tempo.isNone &&
    i.metadata.tempoName.isNone && i.metadata.keySignature.isNone &&
    i.metadata.timeSignature.isNone && i.metadata.version.isNone &&
    i.sections.isNone && i.draftText.isNone && i.chordsBySection.isNone &&
    i.readyForExport.isNone && i.tracks.all omitsOptionalsTrack

/-- The required fields that are present satisfy their declared constraints
(so nothing besides missing optional fields can make validation fail). -/
def requiredOk (i : SongInput) : Bool :=
  i.tracks.all requiredOkTrack

/-- The note input at `tracks[ti].measures[mi].beats[bi].notes[ni]`. -/
def noteInputAt (i : SongInput) (ti mi bi ni : Nat) : Option NoteInput :=
  (i.tracks.get? ti).bind fun t =>
    (t.measures.get? mi).bind fun m =>
      (m.beats.get? bi).bind fun b => b.notes.get? ni

def trackPath (ti : Nat) : String := "tracks" ++ "." ++ Nat.repr ti

/-- The zod issue path of note `ni` of beat `bi` of measure `mi` of track
`ti` (built exactly as the validator builds it). -/
def notePath (ti mi bi ni : Nat) : String :=
  trackPath ti ++ ".measures" ++ "." ++ Nat.repr mi ++ ".beats" ++ "." ++
    Nat.repr bi ++ ".notes" ++ "." ++ Nat.repr ni

/-- A channel note-on event at absolute tick `3 * ticksPerMeasure` (with
`ticksPerBeat = 480`, so tick 5760). -/
def demoNoteOnEvent : MidiEvent :=
  { deltaTime := 5760, eventType := "channel", subtype := some "noteOn",
    noteNumber := some 40, velocity := some 100 }

/-- A MIDI file whose second track holds `demoNoteOnEvent` (the first track is
the skipped tempo/meta track). -/
def demoMidiFile : MidiFile :=
  { ticksPerBeat := some 480, tracks := [[], [demoNoteOnEvent]] }

/-- A MIDI file whose only note-on has `noteNumber = 0` but velocity 100. -/
def pitchZeroMidi : MidiFile :=
  { ticksPerBeat := some 480,
    tracks := [[],
      [{ deltaTime := 0, eventType := "channel", subtype := some "noteOn",
         noteNumber := some 0, velocity := some 100 }]] }

/-! ## Mapper lemmas: last-candidate-wins characterisation -/

theorem candAt_cons_succ (midi : Int) (t : Int) (ts : List Int) (k : Nat) :
    candAt midi (t :: ts) (k + 1) ↔ candAt midi ts k := by
  simp [candAt, List.getD, Nat.succ_lt_succ_iff]

theorem candAt_cons_zero (midi : Int) (t : Int) (ts : List Int) :
    candAt midi (t :: ts) 0 ↔ 0 ≤ midi - t ∧ midi - t ≤ 24 := by
  simp [candAt, List.getD]

theorem lastCand_cons (midi t : Int) (ts : List Int) :
    lastCand midi (t :: ts) =
      (match lastCand midi ts with
       | some j => some (j + 1)
       | none => if 0 ≤ midi - t ∧ midi - t ≤ 24 then some 0 else none) := rfl

theorem mapGo_eq (midi : Int) : ∀ (ts : List Int) (idx : Nat) (best : Nat × Int),
    mapGo midi ts idx best =
      (match lastCand midi ts with
       | some j => (idx + j + 1, midi - ts.getD j 0)
       | none => best) := by
  intro ts
  induction ts with
  | nil => intro idx best; rfl
  | cons t ts ih =>
      intro idx best
      rw [show mapGo midi (t :: ts) idx best =
            mapGo midi ts (idx + 1)
              (if 0 ≤ midi - t ∧ midi - t ≤ 24 then (idx + 1, midi - t) else best)
          from rfl, ih, lastCand_cons]
      cases h : lastCand midi ts with
      | some j =>
          show (idx + 1 + j + 1, midi - ts.getD j 0) =
            (idx + (j + 1) + 1, midi - (t :: ts).getD (j + 1) 0)
          have hg : (t :: ts).getD (j + 1) 0 = ts.getD j 0 := rfl
          rw [hg, Prod.mk.injEq]
          exact ⟨by omega, rfl⟩
      | none =>
          by_cases hc : 0 ≤ midi - t ∧ midi - t ≤ 24
          · rw [if_pos hc, if_pos hc]
            show (idx + 1, midi - t) = (idx + 0 + 1, midi - (t :: ts).getD 0 0)
            rfl
          · rw [if_neg hc, if_neg hc]

theorem lastCand_none (midi : Int) :
    ∀ ts, lastCand midi ts = none → ∀ k, ¬candAt midi ts k := by
  intro ts
  induction ts with
  | nil => intro _ k hk; exact absurd hk.1 (by simp)
  | cons t ts ih =>
      intro h k
      have hrec : lastCand midi ts = none := by
        cases hs : lastCand midi ts with
        | none => rfl
        | some j => rw [lastCand_cons, hs] at h; exact Option.noConfusion h
      rw [lastCand_cons, hrec] at h
      have hc : ¬(0 ≤ midi - t ∧ midi - t ≤ 24) := by
        by_contra hc
        rw [if_pos hc] at h
        exact Option.noConfusion h
      cases k with
      | zero => rw [candAt_cons_zero]; exact hc
      | succ k => rw [candAt_cons_succ]; exact ih hrec k

theorem lastCand_some_cand (midi : Int) :
    ∀ ts j, lastCand midi ts = some j → candAt midi ts j := by
  intro ts
  induction ts with
  | nil => intro j h; exact Option.noConfusion h
  | cons t ts ih =>
      intro j h
      rw [lastCand_cons] at h
      cases hs : lastCand midi ts with
      | some j0 =>
          rw [hs] at h
          have hj : j0 + 1 = j := Option.some_inj.mp h
          rw [← hj, candAt_cons_succ]
          exact ih j0 hs
      | none =>
          rw [hs] at h
          by_cases hc : 0 ≤ midi - t ∧ midi - t ≤ 24
          · rw [if_pos hc] at h
            have hj : (0 : Nat) = j := Option.some_inj.mp h
            rw [← hj, candAt_cons_zero]
            exact hc
          · rw [if_neg hc] at h
            exact Option.noConfusion h

theorem lastCand_some_max (midi : Int) :
    ∀ ts j, lastCand midi ts = some j → ∀ k, candAt midi ts k → k ≤ j := by
  intro ts
  induction ts with
  | nil => intro j h; exact Option.noConfusion h
  | cons t ts ih =>
      intro j h k hk
      rw [lastCand_cons] at h
      cases hs : lastCand midi ts with
      | some j0 =>
          rw [hs] at h
          have hj : j0 + 1 = j := Option.some_inj.mp h
          cases k with
          | zero => omega
          | succ k =>
              rw [candAt_cons_succ] at hk
              have := ih j0 hs k hk
              omega
      | none =>
          cases k with
          | zero => omega
          | succ k =>
              rw [candAt_cons_succ] at hk
              exact absurd hk (lastCand_none midi ts hs k)

/-- Claim C3: `mapMidiToStringFret` is total; when candidates exist it returns
`(j + 1, midi - tuning[j])` for the largest candidate index `j`
(last-candidate-wins), otherwise the fallback `(string 1, fret 0)`; with the
standard tuning, pitch 45 maps to string 2 / fret 0 and pitch 127 falls back
to string 1 / fret 0. -/
theorem mapper_last_candidate_spec (midi : Int) (tuning : List Int) :
    ((∃ i, candAt midi tuning i) →
       ∃ j, candAt midi tuning j ∧ (∀ k, candAt midi tuning k → k ≤ j) ∧
         mapMidiToStringFret midi tuning = (j + 1, midi - tuning.getD j 0)) ∧
    ((∀ i, ¬candAt midi tuning i) → mapMidiToStringFret midi tuning = (1, 0)) ∧
    mapMidiToStringFret 45 [40, 45, 50, 55, 59, 64] = (2, 0) ∧
    mapMidiToStringFret 127 [40, 45, 50, 55, 59, 64] = (1, 0) := by
  refine ⟨?_, ?_, by decide, by decide⟩
  · rintro ⟨i, hi⟩
    cases h : lastCand midi tuning with
    | none => exact absurd hi (lastCand_none midi tuning h i)
    | some j =>
        refine ⟨j, lastCand_some_cand midi tuning j h,
          lastCand_some_max midi tuning j h, ?_⟩
        rw [mapMidiToStringFret, mapGo_eq, h]
        simp
  · intro hnone
    cases h : lastCand midi tuning with
    | some j => exact absurd (lastCand_some_cand midi tuning j h) (hnone j)
    | none => rw [mapMidiToStringFret, mapGo_eq, h]

/-- Witness for C3: pitch 45 on the standard tuning has a candidate string,
and the theorem then yields the last-candidate characterisation there. -/
theorem mapper_last_candidate_spec_witness :
    (∃ i, candAt 45 [40, 45, 50, 55, 59, 64] i) ∧
    (∃ j, candAt 45 [40, 45, 50, 55, 59, 64] j ∧
       (∀ k, candAt 45 [40, 45, 50, 55, 59, 64] k → k ≤ j) ∧
       mapMidiToStringFret 45 [40, 45, 50, 55, 59, 64] =
         (j + 1, 45 - [40, 45, 50, 55, 59, 64].getD j 0)) :=
  ⟨⟨1, by decide⟩,
   (mapper_last_candidate_spec 45 [40, 45, 50, 55, 59, 64]).1 ⟨1, by decide⟩⟩

/-! ## Measure-count equalization lemmas -/

theorem trackFoldl_le (l : List Track) :
    ∀ init : Nat, init ≤ l.foldl (fun m tr => max m tr.measures.length) init := by
  induction l with
  | nil => intro init; exact Nat.le_refl _
  | cons x l ih =>
      intro init
      exact le_trans (Nat.le_max_left _ _) (ih _)

theorem trackFoldl_mem (l : List Track) :
    ∀ (init : Nat) (tr : Track), tr ∈ l →
      tr.measures.length ≤ l.foldl (fun m tr => max m tr.measures.length) init := by
  induction l with
  | nil => intro _ _ h; cases h
  | cons x l ih =>
      intro init tr h
      cases h with
      | head => exact le_trans (Nat.le_max_right _ _) (trackFoldl_le l _)
      | tail _ h => exact ih _ tr h

theorem length_le_maxMeasures (s : Song) {tr : Track} (h : tr ∈ s.tracks) :
    tr.measures.length ≤ maxMeasures s :=
  trackFoldl_mem s.tracks 0 tr h

theorem padTrack_length {maxM : Nat} {tr : Track} (h : tr.measures.length ≤ maxM) :
    (padTrack maxM tr).measures.length = maxM := by
  unfold padTrack
  by_cases he : tr.measures.length = maxM
  · rw [if_pos he]; exact he
  · rw [if_neg he]
    simp only [List.length_append, List.length_map, List.length_range]
    omega

theorem padTrack_eq (maxM : Nat) (tr : Track) :
    padTrack maxM tr =
      { tr with
        measures := tr.measures ++
          (List.range (maxM - tr.measures.length)).map
            (fun i => paddingMeasure (tr.measures.length + i)) } := by
  unfold padTrack
  by_cases he : tr.measures.length = maxM
  · rw [if_pos he, ← he, Nat.sub_self]
    simp
  · rw [if_neg he]

theorem ensureMeasureCounts_len (s : Song) :
    ∀ tr ∈ (ensureMeasureCounts s).tracks, tr.measures.length = maxMeasures s := by
  intro tr h
  rcases List.mem_map.mp h with ⟨tr0, h0, rfl⟩
  exact padTrack_length (length_le_maxMeasures s h0)

theorem trackFoldl_const (M : Nat) :
    ∀ l : List Track, (∀ x ∈ l, x.measures.length = M) →
      ∀ init : Nat, l.foldl (fun m tr => max m tr.measures.length) init =
        if l.isEmpty then init else max init M := by
  intro l
  induction l with
  | nil => intro _ init; rfl
  | cons x l ih =>
      intro h init
      have hx : x.measures.length = M := h x (List.mem_cons_self x l)
      show l.foldl _ (max init x.measures.length) = max init M
      rw [hx, ih (fun y hy => h y (List.mem_cons_of_mem x hy))]
      cases l with
      | nil => rfl
      | cons y l =>
          show max (max init M) M = max init M
          rw [Nat.max_assoc, Nat.max_self]

theorem maxMeasures_ensure (s : Song) :
    maxMeasures (ensureMeasureCounts s) = maxMeasures s := by
  have h1 : maxMeasures (ensureMeasureCounts s) =
      if (ensureMeasureCounts s).tracks.isEmpty then 0 else max 0 (maxMeasures s) :=
    trackFoldl_const (maxMeasures s) _ (ensureMeasureCounts_len s) 0
  cases hl : s.tracks with
  | nil =>
      have h2 : (ensureMeasureCounts s).tracks = [] := by
        show s.tracks.map _ = []
        rw [hl]; rfl
      rw [h1, h2]
      show 0 = maxMeasures s
      unfold maxMeasures
      rw [hl]
      rfl
  | cons x l =>
      have h2 : (ensureMeasureCounts s).tracks.isEmpty = false := by
        show (s.tracks.map _).isEmpty = false
        rw [hl]; rfl
      rw [h1, h2, if_neg (by simp), Nat.zero_max]

theorem map_eq_self_of_mem {l : List Track} {f : Track → Track}
    (h : ∀ x ∈ l, f x = x) : l.map f = l := by
  induction l with
  | nil => rfl
  | cons x t ih =>
      rw [List.map_cons, h x (List.mem_cons_self x t),
        ih (fun y hy => h y (List.mem_cons_of_mem x hy))]

/-- Claim C4: after `addTrack` or `ensureMeasureCounts`, every track has the
same measure count, the maximum over the input's tracks, and each shorter
track is padded at the end with fresh measures whose indices continue
sequentially from its previous length and whose beat lists are empty. -/
theorem add_track_equalizes_measure_counts (s : Song) (t : Track) :
    (∀ tr ∈ (ensureMeasureCounts s).tracks, tr.measures.length = maxMeasures s) ∧
    (∀ tr ∈ (addTrack s t).tracks,
       tr.measures.length = maxMeasures { s with tracks := s.tracks ++ [t] }) ∧
    (ensureMeasureCounts s).tracks = s.tracks.map (fun tr =>
      { tr with
        measures := tr.measures ++
          (List.range (maxMeasures s - tr.measures.length)).map
            (fun i => paddingMeasure (tr.measures.length + i)) }) := by
  refine ⟨ensureMeasureCounts_len s, ensureMeasureCounts_len _, ?_⟩
  show s.tracks.map (padTrack (maxMeasures s)) = _
  rw [funext (padTrack_eq (maxMeasures s))]

/-- Witness for C4: in a two-track song whose second track is shorter, the
padded second track is a member of the equalized track list and has exactly
the maximal measure count. -/
theorem add_track_equalizes_measure_counts_witness :
    padTrack (maxMeasures { emptySong with tracks :=
        [{ buildTrack "guitar" "Guitar" "Guitar" false with
             measures := [createDefaultMeasure 0] },
         buildTrack "bass" "Bass" "Bass" false] })
      (buildTrack "bass" "Bass" "Bass" false) ∈
      (ensureMeasureCounts { emptySong with tracks :=
        [{ buildTrack "guitar" "Guitar" "Guitar" false with
             measures := [createDefaultMeasure 0] },
         buildTrack "bass" "Bass" "Bass" false] }).tracks ∧
    (padTrack (maxMeasures { emptySong with tracks :=
        [{ buildTrack "guitar" "Guitar" "Guitar" false with
             measures := [createDefaultMeasure 0] },
         buildTrack "bass" "Bass" "Bass" false] })
      (buildTrack "bass" "Bass" "Bass" false)).measures.length =
      maxMeasures { emptySong with tracks :=
        [{ buildTrack "guitar" "Guitar" "Guitar" false with
             measures := [createDefaultMeasure 0] },
         buildTrack "bass" "Bass" "Bass" false] } :=
  ⟨by decide,
   (add_track_equalizes_measure_counts _ (buildTrack "bass" "Bass" "Bass" false)).1
     _ (by decide)⟩

/-- Claim C7: `ensureMeasureCounts` is idempotent. -/
theorem equalize_measure_counts_idempotent (s : Song) :
    ensureMeasureCounts (ensureMeasureCounts s) = ensureMeasureCounts s := by
  show { ensureMeasureCounts s with
      tracks := (ensureMeasureCounts s).tracks.map
        (padTrack (maxMeasures (ensureMeasureCounts s))) } = ensureMeasureCounts s
  rw [maxMeasures_ensure s]
  rw [map_eq_self_of_mem (fun tr htr => by
    unfold padTrack
    rw [if_pos (ensureMeasureCounts_len s tr htr)])]

/-! ## Transcriber lemmas -/

theorem modifyAt_length : ∀ (l : List α) (n : Nat) (f : α → α),
    (modifyAt l n f).length = l.length := by
  intro l
  induction l with
  | nil => intro n f; rfl
  | cons x xs ih =>
      intro n f
      cases n with
      | zero => rfl
      | succ n => show (modifyAt xs n f).length + 1 = xs.length + 1; rw [ih]

theorem modifyAt_get?_eq : ∀ (l : List α) (n : Nat) (f : α → α),
    (modifyAt l n f).get? n = (l.get? n).map f := by
  intro l
  induction l with
  | nil => intro n f; cases n <;> rfl
  | cons x xs ih =>
      intro n f
      cases n with
      | zero => rfl
      | succ n => exact ih n f

theorem modifyAt_get?_ne : ∀ (l : List α) (n k : Nat) (f : α → α), ¬k = n →
    (modifyAt l n f).get? k = l.get? k := by
  intro l
  induction l with
  | nil => intro n k f _; rfl
  | cons x xs ih =>
      intro n k f hk
      cases n with
      | zero =>
          cases k with
          | zero => exact absurd rfl hk
          | succ k => rfl
      | succ n =>
          cases k with
          | zero => rfl
          | succ k => exact ih n k f (fun h => hk (by rw [h]))

theorem getD_eq_get?D : ∀ (l : List α) (n : Nat) (d : α),
    l.getD n d = (l.get? n).getD d := by
  intro l
  induction l with
  | nil => intro n d; cases n <;> rfl
  | cons x xs ih =>
      intro n d
      cases n with
      | zero => rfl
      | succ n => exact ih n d

theorem growMeasures_length (ms : List Measure) (mi : Nat) :
    (growMeasures ms mi).length = max ms.length (mi + 1) := by
  unfold growMeasures
  rw [List.length_append, List.length_map, List.length_range]
  omega

theorem growMeasures_get?_lt {ms : List Measure} {mi k : Nat}
    (h : k < ms.length) : (growMeasures ms mi).get? k = ms.get? k :=
  List.get?_append h

theorem growMeasures_get?_ge {ms : List Measure} {mi k : Nat}
    (h1 : ms.length ≤ k) (h2 : k < max ms.length (mi + 1)) :
    (growMeasures ms mi).get? k = some (emptyTranscriptionMeasure k) := by
  unfold growMeasures
  rw [List.get?_append_right (by simpa using h1), List.get?_map,
    List.get?_range (by omega)]
  show some (emptyTranscriptionMeasure (ms.length + (k - ms.length))) = _
  have hk : ms.length + (k - ms.length) = k := by omega
  rw [hk]

/-- `stepEvent` on a qualifying note-on event, with the guards discharged. -/
theorem stepEvent_noteOn (tpm tpb : Nat) (tuning : List Int) (tr : Track)
    (prevAbs : Nat) (e : MidiEvent)
    (hkind : e.eventType = "channel" ∧ e.subtype = some "noteOn")
    (hnn : ¬e.noteNumber.getD 0 = 0) (hv : ¬e.velocity.getD 0 = 0) :
    stepEvent tpm tpb tuning (tr, prevAbs) e =
      ({ tr with
         measures :=
           modifyAt (growMeasures tr.measures ((prevAbs + e.deltaTime) / tpm))
             ((prevAbs + e.deltaTime) / tpm)
             (fun m => { m with
               beats := m.beats ++
                 [transcribedBeat tuning (((prevAbs + e.deltaTime) % tpm) / tpb)
                    (e.noteNumber.getD 0) (e.velocity.getD 90)] }) },
       prevAbs + e.deltaTime) := by
  unfold stepEvent
  rw [if_neg (not_not_intro hkind), if_neg (fun h => h.elim hnn hv)]

/-- Claim C6: a note-on with nonzero velocity (and nonzero pitch, which the
guard also requires) arriving at absolute tick `a` is placed at measure index
`a / ticksPerMeasure`, beat offset `(a % ticksPerMeasure) / ticksPerBeat`, of
its target track; measures the track lacks up to that index are appended as
empty measures with sequentially continuing indices; in particular a note-on
at tick `3 * ticksPerMeasure` lands in measure index 3, creating measures
0..3. -/
theorem transcription_measure_growth (tpb : Nat) (_htpb : 0 < tpb)
    (tuning : List Int) (tr : Track) (prevAbs : Nat) (e : MidiEvent)
    (hkind : e.eventType = "channel" ∧ e.subtype = some "noteOn")
    (hnn : ¬e.noteNumber.getD 0 = 0) (hv : ¬e.velocity.getD 0 = 0) :
    (stepEvent (tpb * 4) tpb tuning (tr, prevAbs) e).2 = prevAbs + e.deltaTime ∧
    (stepEvent (tpb * 4) tpb tuning (tr, prevAbs) e).1.measures.length =
      max tr.measures.length ((prevAbs + e.deltaTime) / (tpb * 4) + 1) ∧
    (∀ k, k < tr.measures.length → ¬k = (prevAbs + e.deltaTime) / (tpb * 4) →
       (stepEvent (tpb * 4) tpb tuning (tr, prevAbs) e).1.measures.get? k =
         tr.measures.get? k) ∧
    (∀ k, tr.measures.length ≤ k →
       k < max tr.measures.length ((prevAbs + e.deltaTime) / (tpb * 4) + 1) →
       ¬k = (prevAbs + e.deltaTime) / (tpb * 4) →
       (stepEvent (tpb * 4) tpb tuning (tr, prevAbs) e).1.measures.get? k =
         some (emptyTranscriptionMeasure k)) ∧
    (stepEvent (tpb * 4) tpb tuning (tr, prevAbs) e).1.measures.get?
        ((prevAbs + e.deltaTime) / (tpb * 4)) =
      some { tr.measures.getD ((prevAbs + e.deltaTime) / (tpb * 4))
               (emptyTranscriptionMeasure ((prevAbs + e.deltaTime) / (tpb * 4))) with
             beats :=
               (tr.measures.getD ((prevAbs + e.deltaTime) / (tpb * 4))
                 (emptyTranscriptionMeasure
                   ((prevAbs + e.deltaTime) / (tpb * 4)))).beats ++
               [transcribedBeat tuning (((prevAbs + e.deltaTime) % (tpb * 4)) / tpb)
                  (e.noteNumber.getD 0) (e.velocity.getD 90)] } ∧
    ((midiToSong emptySong demoMidiFile).tracks.get? 0).map
        (fun t => t.measures.map (fun m => (m.index, m.beats.map Beat.start))) =
      some [(0, []), (1, []), (2, []), (3, [0])] := by
  rw [stepEvent_noteOn (tpb * 4) tpb tuning tr prevAbs e hkind hnn hv]
  refine ⟨rfl, ?_, ?_, ?_, ?_, by decide⟩
  · show (modifyAt (growMeasures tr.measures _) _ _).length = _
    rw [modifyAt_length, growMeasures_length]
  · intro k hk hkne
    show (modifyAt (growMeasures tr.measures _) _ _).get? k = _
    rw [modifyAt_get?_ne _ _ _ _ hkne, growMeasures_get?_lt hk]
  · intro k hk1 hk2 hkne
    show (modifyAt (growMeasures tr.measures _) _ _).get? k = _
    rw [modifyAt_get?_ne _ _ _ _ hkne, growMeasures_get?_ge hk1 hk2]
  · show (modifyAt (growMeasures tr.measures _) _ _).get? _ = _
    rw [modifyAt_get?_eq, getD_eq_get?D]
    by_cases hmi : (prevAbs + e.deltaTime) / (tpb * 4) < tr.measures.length
    · rw [growMeasures_get?_lt hmi, List.get?_eq_get hmi]
      rfl
    · rw [growMeasures_get?_ge (by omega) (by omega),
        List.get?_eq_none.mpr (by omega)]
      rfl

/-- Witness for C6: the demo note-on event at tick 5760 with
`ticksPerBeat = 480` grows the empty guitar track to `max 0 (5760/1920 + 1) =
4` measures. -/
theorem transcription_measure_growth_witness :
    (0 : Nat) < 480 ∧
    (stepEvent (480 * 4) 480 STANDARD_TUNING
        (ensureTranscriptionTrack "Guitar" "Guitar" false, 0) demoNoteOnEvent).1.measures.length =
      max (ensureTranscriptionTrack "Guitar" "Guitar" false).measures.length
        ((0 + demoNoteOnEvent.deltaTime) / (480 * 4) + 1) :=
  ⟨by decide,
   (transcription_measure_growth 480 (by decide) STANDARD_TUNING
     (ensureTranscriptionTrack "Guitar" "Guitar" false) 0 demoNoteOnEvent
     ⟨rfl, rfl⟩ (by decide) (by decide)).2.1⟩

/-- Claim C10: a note-on whose `noteNumber` is 0 (or absent) contributes
nothing to the transcription — the guard `!event.noteNumber` treats MIDI
pitch 0 as absent, so such events only advance the tick counter — even though
the schema itself accepts `midiPitch = 0` as a valid pitch. -/
theorem pitch_zero_note_on_dropped :
    (∀ (tpm tpb : Nat) (tuning : List Int) (tr : Track) (a : Nat) (e : MidiEvent),
       e.noteNumber.getD 0 = 0 →
       stepEvent tpm tpb tuning (tr, a) e = (tr, a + e.deltaTime)) ∧
    (midiToSong emptySong pitchZeroMidi).tracks.all
        (fun t => t.measures.isEmpty) = true ∧
    validateSong pitchZeroSongInput = Except.ok (parsedSong pitchZeroSongInput) ∧
    ((parsedSong pitchZeroSongInput).tracks.map (fun t => t.measures.map
        (fun m => m.beats.map (fun b => b.notes.map Note.midiPitch)))) =
      [[[[some 0]]]] := by
  refine ⟨?_, by decide, rfl, by decide⟩
  intro tpm tpb tuning tr a e h
  unfold stepEvent
  split
  · rfl
  · rw [if_pos (Or.inl h)]

/-- Witness for C10: a pitch-0 note-on event leaves the guitar track unchanged
and only advances the absolute tick. -/
theorem pitch_zero_note_on_dropped_witness :
    stepEvent 1920 480 STANDARD_TUNING
        (ensureTranscriptionTrack "Guitar" "Guitar" false, 0)
        { deltaTime := 7, eventType := "channel", subtype := some "noteOn",
          noteNumber := some 0, velocity := some 100 } =
      (ensureTranscriptionTrack "Guitar" "Guitar" false, 0 + 7) :=
  pitch_zero_note_on_dropped.1 1920 480 STANDARD_TUNING
    (ensureTranscriptionTrack "Guitar" "Guitar" false) 0
    { deltaTime := 7, eventType := "channel", subtype := some "noteOn",
      noteNumber := some 0, velocity := some 100 } rfl

/-! ## Validator lemmas -/

theorem validateList_errs_nil (f : String → α → List String × β) (base : String) :
    ∀ l : List α, (∀ x ∈ l, ∀ p, (f p x).1 = []) →
      ∀ i : Nat, (validateList f base i l).1 = [] := by
  intro l
  induction l with
  | nil => intro _ i; rfl
  | cons x xs ih =>
      intro h i
      show (f (base ++ "." ++ Nat.repr i) x).1 ++
        (validateList f base (i + 1) xs).1 = []
      rw [h x (List.mem_cons_self x xs),
        ih (fun y hy => h y (List.mem_cons_of_mem x hy)) (i + 1)]
      rfl

theorem validateList_mem_val (f : String → α → List String × β) (base : String) :
    ∀ (l : List α) (i : Nat) (y : β), y ∈ (validateList f base i l).2 →
      ∃ x ∈ l, ∃ p, y = (f p x).2 := by
  intro l
  induction l with
  | nil => intro i y h; cases h
  | cons x xs ih =>
      intro i y h
      have h2 : y = (f (base ++ "." ++ Nat.repr i) x).2 ∨
          y ∈ (validateList f base (i + 1) xs).2 := by
        rw [show (validateList f base i (x :: xs)).2 =
            (f (base ++ "." ++ Nat.repr i) x).2 ::
              (validateList f base (i + 1) xs).2 from rfl] at h
        simpa using h
      cases h2 with
      | inl h2 =>
          exact ⟨x, List.mem_cons_self x xs, base ++ "." ++ Nat.repr i, h2⟩
      | inr h2 =>
          rcases ih (i + 1) y h2 with ⟨z, hz, p, hp⟩
          exact ⟨z, List.mem_cons_of_mem x hz, p, hp⟩

theorem validateList_mem_errs (f : String → α → List String × β) (base : String) :
    ∀ (l : List α) (i j : Nat) (x : α) (e : String),
      l.get? j = some x → e ∈ (f (base ++ "." ++ Nat.repr (i + j)) x).1 →
      e ∈ (validateList f base i l).1 := by
  intro l
  induction l with
  | nil => intro i j x e h; exact absurd h (by simp)
  | cons y ys ih =>
      intro i j x e h hm
      show e ∈ (f (base ++ "." ++ Nat.repr i) y).1 ++
        (validateList f base (i + 1) ys).1
      rw [List.mem_append]
      cases j with
      | zero =>
          have hx : y = x := by simpa using h
          rw [Nat.add_zero] at hm
          rw [hx]
          exact Or.inl hm
      | succ j =>
          have h2 : ys.get? j = some x := by simpa using h
          have hm2 : e ∈ (f (base ++ "." ++ Nat.repr ((i + 1) + j)) x).1 := by
            have harith : (i + 1) + j = i + (j + 1) := by omega
            rw [harith]
            exact hm
          exact Or.inr (ih (i + 1) j x e h2 hm2)

theorem noteErrs_nil (p : String) (n : NoteInput)
    (h1 : omitsOptionalsNote n = true) (h2 : requiredOkNote n = true) :
    (validateNote p n).1 = [] := by
  obtain ⟨hstr, hfret, hmidi, hdot, htup, hvel, heff⟩ :
      n.string = none ∧ n.fret = none ∧ n.midiPitch = none ∧
        n.duration.dotted = none ∧ n.duration.tuplet = none ∧
        n.velocity = none ∧ n.effects = none := by
    simpa [omitsOptionalsNote, Option.isNone_iff_eq_none, and_assoc] using h1
  obtain ⟨htype, hnum, hden⟩ :
      (n.noteType = "note" ∨ n.noteType = "rest") ∧
        (1 ≤ n.duration.numerator ∧ n.duration.numerator ≤ 64) ∧
        (1 ≤ n.duration.denominator ∧ n.duration.denominator ≤ 64) := by
    simpa [requiredOkNote, and_assoc] using h2
  simp [validateNote, validateDuration, optBound, defBound, reqBound,
    hstr, hfret, hmidi, htup, hvel, heff, htype, hnum, hden]

theorem beatErrs_nil (p : String) (b : BeatInput)
    (h1 : omitsOptionalsBeat b = true) (h2 : requiredOkBeat b = true) :
    (validateBeat p b).1 = [] := by
  obtain ⟨hcn, htx, hnotes⟩ :
      b.chordName = none ∧ b.text = none ∧ b.notes.all omitsOptionalsNote = true := by
    simpa [omitsOptionalsBeat, Option.isNone_iff_eq_none, and_assoc] using h1
  obtain ⟨hstart, hnotes2⟩ :
      0 ≤ b.start ∧ b.notes.all requiredOkNote = true := by
    simpa [requiredOkBeat, and_assoc] using h2
  have hlist : (validateList validateNote (p ++ ".notes") 0 b.notes).1 = [] :=
    validateList_errs_nil _ _ _ (fun x hx q =>
      noteErrs_nil q x (List.all_eq_true.mp hnotes x hx)
        (List.all_eq_true.mp hnotes2 x hx)) 0
  simp [validateBeat, hstart, hlist]

theorem measureErrs_nil (p : String) (m : MeasureInput)
    (h1 : omitsOptionalsMeasure m = true) (h2 : requiredOkMeasure m = true) :
    (validateMeasure p m).1 = [] := by
  obtain ⟨hh, hl, hbeats⟩ :
      m.header = none ∧ m.lyrics = none ∧ m.beats.all omitsOptionalsBeat = true := by
    simpa [omitsOptionalsMeasure, Option.isNone_iff_eq_none, and_assoc] using h1
  obtain ⟨hidx, hbeats2⟩ :
      0 ≤ m.index ∧ m.beats.all requiredOkBeat = true := by
    simpa [requiredOkMeasure, and_assoc] using h2
  have hlist : (validateList validateBeat (p ++ ".beats") 0 m.beats).1 = [] :=
    validateList_errs_nil _ _ _ (fun x hx q =>
      beatErrs_nil q x (List.all_eq_true.mp hbeats x hx)
        (List.all_eq_true.mp hbeats2 x hx)) 0
  simp [validateMeasure, hh, hidx, hlist]

theorem trackErrs_nil (p : String) (t : TrackInput)
    (h1 : omitsOptionalsTrack t = true) (h2 : requiredOkTrack t = true) :
    (validateTrack p t).1 = [] := by
  obtain ⟨hd, hsc, htun, hcapo, hvol, hpan, hms⟩ :
      t.isDrums = none ∧ t.stringCount = none ∧ t.tuning = none ∧
        t.capo = none ∧ t.volume = none ∧ t.pan = none ∧
        t.measures.all omitsOptionalsMeasure = true := by
    simpa [omitsOptionalsTrack, Option.isNone_iff_eq_none, and_assoc] using h1
  have hms2 : t.measures.all requiredOkMeasure = true := by
    simpa [requiredOkTrack] using h2
  have hlist : (validateList validateMeasure (p ++ ".measures") 0 t.measures).1 = [] :=
    validateList_errs_nil _ _ _ (fun x hx q =>
      measureErrs_nil q x (List.all_eq_true.mp hms x hx)
        (List.all_eq_true.mp hms2 x hx)) 0
  simp [validateTrack, optBound, defBound, hsc, htun, hcapo, hvol, hpan, hlist]

theorem parsedNote_defaults (p : String) (n : NoteInput)
    (h1 : omitsOptionalsNote n = true) :
    (validateNote p n).2.velocity = 90 ∧ (validateNote p n).2.effects = none := by
  obtain ⟨hstr, hfret, hmidi, hdot, htup, hvel, heff⟩ :
      n.string = none ∧ n.fret = none ∧ n.midiPitch = none ∧
        n.duration.dotted = none ∧ n.duration.tuplet = none ∧
        n.velocity = none ∧ n.effects = none := by
    simpa [omitsOptionalsNote, Option.isNone_iff_eq_none, and_assoc] using h1
  constructor
  · show (defBound (p ++ ".velocity") 1 127 90 n.velocity).2 = 90
    rw [hvel]
    rfl
  · show (match n.effects with
      | none => (([] : List String), (none : Option NoteEffect))
      | some e =>
          ((validateNoteEffect (p ++ ".effects") e).1,
           some (validateNoteEffect (p ++ ".effects") e).2)).2 = none
    rw [heff]

theorem parsedBeat_defaults (p : String) (b : BeatInput)
    (h1 : omitsOptionalsBeat b = true) :
    ∀ n ∈ (validateBeat p b).2.notes, n.velocity = 90 ∧ n.effects = none := by
  obtain ⟨hcn, htx, hnotes⟩ :
      b.chordName = none ∧ b.text = none ∧ b.notes.all omitsOptionalsNote = true := by
    simpa [omitsOptionalsBeat, Option.isNone_iff_eq_none, and_assoc] using h1
  intro n hn
  have hn2 : n ∈ (validateList validateNote (p ++ ".notes") 0 b.notes).2 := hn
  rcases validateList_mem_val _ _ _ _ _ hn2 with ⟨x, hx, q, rfl⟩
  exact parsedNote_defaults q x (List.all_eq_true.mp hnotes x hx)

theorem parsedMeasure_defaults (p : String) (m : MeasureInput)
    (h1 : omitsOptionalsMeasure m = true) :
    ∀ b ∈ (validateMeasure p m).2.beats, ∀ n ∈ b.notes,
      n.velocity = 90 ∧ n.effects = none := by
  obtain ⟨hh, hl, hbeats⟩ :
      m.header = none ∧ m.lyrics = none ∧ m.beats.all omitsOptionalsBeat = true := by
    simpa [omitsOptionalsMeasure, Option.isNone_iff_eq_none, and_assoc] using h1
  intro b hb
  have hb2 : b ∈ (validateList validateBeat (p ++ ".beats") 0 m.beats).2 := hb
  rcases validateList_mem_val _ _ _ _ _ hb2 with ⟨x, hx, q, rfl⟩
  exact parsedBeat_defaults q x (List.all_eq_true.mp hbeats x hx)

theorem parsedTrack_defaults (p : String) (t : TrackInput)
    (h1 : omitsOptionalsTrack t = true) :
    (validateTrack p t).2.capo = 0 ∧ (validateTrack p t).2.volume = 100 ∧
      (validateTrack p t).2.pan = 64 ∧
      ∀ m ∈ (validateTrack p t).2.measures, ∀ b ∈ m.beats, ∀ n ∈ b.notes,
        n.velocity = 90 ∧ n.effects = none := by
  obtain ⟨hd, hsc, htun, hcapo, hvol, hpan, hms⟩ :
      t.isDrums = none ∧ t.stringCount = none ∧ t.tuning = none ∧
        t.capo = none ∧ t.volume = none ∧ t.pan = none ∧
        t.measures.all omitsOptionalsMeasure = true := by
    simpa [omitsOptionalsTrack, Option.isNone_iff_eq_none, and_assoc] using h1
  refine ⟨?_, ?_, ?_, ?_⟩
  · show (defBound (p ++ ".capo") 0 24 0 t.capo).2 = 0
    rw [hcapo]
    rfl
  · show (defBound (p ++ ".volume") 0 127 100 t.volume).2 = 100
    rw [hvol]
    rfl
  · show (defBound (p ++ ".pan") 0 127 64 t.pan).2 = 64
    rw [hpan]
    rfl
  · intro m hm
    have hm2 : m ∈ (validateList validateMeasure (p ++ ".measures") 0 t.measures).2 := hm
    rcases validateList_mem_val _ _ _ _ _ hm2 with ⟨x, hx, q, rfl⟩
    exact parsedMeasure_defaults q x (List.all_eq_true.mp hms x hx)

/-- Claim C5: an input missing only optional fields validates successfully and
the documented defaults are populated exactly: tempo 120, key "C", time
signature 4/4, version "5.00", `readyForExport` false, capo 0, volume 100,
pan 64, note velocity 90, and no effect flag set for omitted effect flags
(the parsed note carries no effects bundle, i.e. the empty bundle). -/
theorem validator_total_defaulting (i : SongInput)
    (h1 : omitsOptionals i = true) (h2 : requiredOk i = true) :
    validateSong i = Except.ok (parsedSong i) ∧
    (parsedSong i).metadata.tempo = 120 ∧
    (parsedSong i).metadata.keySignature = "C" ∧
    (parsedSong i).metadata.timeSignature = { beats := 4, beatType := 4 } ∧
    (parsedSong i).metadata.version = "5.00" ∧
    (parsedSong i).readyForExport = false ∧
    ∀ tr ∈ (parsedSong i).tracks, tr.capo = 0 ∧ tr.volume = 100 ∧ tr.pan = 64 ∧
      ∀ m ∈ tr.measures, ∀ b ∈ m.beats, ∀ n ∈ b.notes,
        n.velocity = 90 ∧ n.effects = none := by
  obtain ⟨ht, ha, hal, htmp, htn, hk, hts, hv, hsec, hdr, hch, hre, htr⟩ :
      i.metadata.title = none ∧ i.metadata.artist = none ∧
        i.metadata.album = none ∧ i.metadata.tempo = none ∧
        i.metadata.tempoName = none ∧ i.metadata.keySignature = none ∧
        i.metadata.timeSignature = none ∧ i.metadata.version = none ∧
        i.sections = none ∧ i.draftText = none ∧ i.chordsBySection = none ∧
        i.readyForExport = none ∧ i.tracks.all omitsOptionalsTrack = true := by
    simpa [omitsOptionals, Option.isNone_iff_eq_none, and_assoc] using h1
  have htr2 : i.tracks.all requiredOkTrack = true := by
    simpa [requiredOk] using h2
  have herrs : songErrors i = [] := by
    have hm : (validateMetadata "metadata" i.metadata).1 = [] := by
      simp [validateMetadata, defBound, htmp, hts]
    have htl : (validateList validateTrack "tracks" 0 i.tracks).1 = [] :=
      validateList_errs_nil _ _ _ (fun x hx q =>
        trackErrs_nil q x (List.all_eq_true.mp htr x hx)
          (List.all_eq_true.mp htr2 x hx)) 0
    simp [songErrors, validateSongAux, hm, hsec, htl]
  refine ⟨?_, ?_, ?_, ?_, ?_, ?_, ?_⟩
  · rw [validateSong, if_pos herrs]
  · show (validateMetadata "metadata" i.metadata).2.tempo = 120
    show (defBound ("metadata" ++ ".tempo") 30 300 120 i.metadata.tempo).2 = 120
    rw [htmp]
    rfl
  · show (validateMetadata "metadata" i.metadata).2.keySignature = "C"
    show i.metadata.keySignature.getD "C" = "C"
    rw [hk]
    rfl
  · show (validateMetadata "metadata" i.metadata).2.timeSignature = _
    show (match i.metadata.timeSignature with
      | none => (([] : List String), ({ beats := 4, beatType := 4 } : TimeSignature))
      | some t => validateTimeSignature ("metadata" ++ ".timeSignature") t).2 = _
    rw [hts]
  · show (validateMetadata "metadata" i.metadata).2.version = "5.00"
    show i.metadata.version.getD "5.00" = "5.00"
    rw [hv]
    rfl
  · show i.readyForExport.getD false = false
    rw [hre]
    rfl
  · intro tr hmem
    have hmem2 : tr ∈ (validateList validateTrack "tracks" 0 i.tracks).2 := hmem
    rcases validateList_mem_val _ _ _ _ _ hmem2 with ⟨x, hx, q, rfl⟩
    exact parsedTrack_defaults q x (List.all_eq_true.mp htr x hx)

/-- Witness for C5: the concrete minimal input (one track, one measure, one
beat, one `"note"` with a plain quarter duration, everything optional
omitted) validates and receives exactly the documented defaults. -/
theorem validator_total_defaulting_witness :
    omitsOptionals defaultsProbeInput = true ∧
    requiredOk defaultsProbeInput = true ∧
    (validateSong defaultsProbeInput = Except.ok (parsedSong defaultsProbeInput) ∧
     (parsedSong defaultsProbeInput).metadata.tempo = 120 ∧
     (parsedSong defaultsProbeInput).metadata.keySignature = "C" ∧
     (parsedSong defaultsProbeInput).metadata.timeSignature =
       { beats := 4, beatType := 4 } ∧
     (parsedSong defaultsProbeInput).metadata.version = "5.00" ∧
     (parsedSong defaultsProbeInput).readyForExport = false ∧
     ∀ tr ∈ (parsedSong defaultsProbeInput).tracks,
       tr.capo = 0 ∧ tr.volume = 100 ∧ tr.pan = 64 ∧
       ∀ m ∈ tr.measures, ∀ b ∈ m.beats, ∀ n ∈ b.notes,
         n.velocity = 90 ∧ n.effects = none) :=
  ⟨by decide, by decide,
   validator_total_defaulting defaultsProbeInput (by decide) (by decide)⟩

theorem songErrors_def (i : SongInput) :
    songErrors i = (validateMetadata "metadata" i.metadata).1 ++
      (match i.sections with
       | none => (([] : List String), ([] : List SongSection))
       | some l => validateList validateSongSection "sections" 0 l).1 ++
      (validateList validateTrack "tracks" 0 i.tracks).1 := rfl

theorem reqBound_fail {path : String} {lo hi v : Int} (h : ¬(lo ≤ v ∧ v ≤ hi)) :
    reqBound path lo hi v = [path] := by
  rw [reqBound, if_neg h]

theorem noteVelocityErr_mem (p : String) (n : NoteInput)
    (h : n.velocity = some 0) : p ++ ".velocity" ∈ (validateNote p n).1 := by
  have hv : (defBound (p ++ ".velocity") 1 127 90 n.velocity).1 =
      [p ++ ".velocity"] := by
    rw [h]
    show reqBound (p ++ ".velocity") 1 127 0 = _
    rw [reqBound_fail (by omega)]
  simp [validateNote, List.mem_append, hv]

theorem beatErr_mem (p : String) (b : BeatInput) (e : String) (ni : Nat)
    (n : NoteInput) (hn : b.notes.get? ni = some n)
    (he : e ∈ (validateNote ((p ++ ".notes") ++ "." ++ Nat.repr ni) n).1) :
    e ∈ (validateBeat p b).1 := by
  have h := validateList_mem_errs validateNote (p ++ ".notes") b.notes 0 ni n e hn
    (by rw [Nat.zero_add]; exact he)
  show e ∈ (if 0 ≤ b.start then [] else [p ++ ".start"]) ++
    (validateList validateNote (p ++ ".notes") 0 b.notes).1
  exact List.mem_append_right _ h

theorem measureErr_mem (p : String) (m : MeasureInput) (e : String) (bi : Nat)
    (b : BeatInput) (hb : m.beats.get? bi = some b)
    (he : e ∈ (validateBeat ((p ++ ".beats") ++ "." ++ Nat.repr bi) b).1) :
    e ∈ (validateMeasure p m).1 := by
  have h := validateList_mem_errs validateBeat (p ++ ".beats") m.beats 0 bi b e hb
    (by rw [Nat.zero_add]; exact he)
  show e ∈ (if 0 ≤ m.index then [] else [p ++ ".index"]) ++
    (match m.header with
     | none => (([] : List String), (none : Option MeasureHeader))
     | some h =>
         ((validateMeasureHeader (p ++ ".header") h).1,
          some (validateMeasureHeader (p ++ ".header") h).2)).1 ++
    (validateList validateBeat (p ++ ".beats") 0 m.beats).1
  exact List.mem_append_right _ h

theorem trackErr_mem (p : String) (t : TrackInput) (e : String) (mi : Nat)
    (m : MeasureInput) (hm : t.measures.get? mi = some m)
    (he : e ∈ (validateMeasure ((p ++ ".measures") ++ "." ++ Nat.repr mi) m).1) :
    e ∈ (validateTrack p t).1 := by
  have h := validateList_mem_errs validateMeasure (p ++ ".measures")
    t.measures 0 mi m e hm (by rw [Nat.zero_add]; exact he)
  show e ∈ optBound (p ++ ".stringCount") 1 12 t.stringCount ++
    (match t.tuning with
     | none => []
     | some l => (validateList (fun p v => (reqBound p 0 127 v, v))
         (p ++ ".tuning") 0 l).1) ++
    (defBound (p ++ ".capo") 0 24 0 t.capo).1 ++
    (defBound (p ++ ".volume") 0 127 100 t.volume).1 ++
    (defBound (p ++ ".pan") 0 127 64 t.pan).1 ++
    (validateList validateMeasure (p ++ ".measures") 0 t.measures).1
  exact List.mem_append_right _ h

/-- Claim C9: a present `tempo` of 301, or a present note `velocity` of 0,
makes `validateSong` fail with an error naming the offending field path; the
value is never silently clamped into range (no parsed song is produced). -/
theorem validator_rejects_out_of_range (i : SongInput) :
    (i.metadata.tempo = some 301 →
       validateSong i = Except.error (songErrors i) ∧
       "metadata.tempo" ∈ songErrors i) ∧
    (∀ ti mi bi ni n, noteInputAt i ti mi bi ni = some n → n.velocity = some 0 →
       validateSong i = Except.error (songErrors i) ∧
       notePath ti mi bi ni ++ ".velocity" ∈ songErrors i) := by
  constructor
  · intro h
    have hm : "metadata.tempo" ∈ (validateMetadata "metadata" i.metadata).1 := by
      have h1 : (defBound ("metadata" ++ ".tempo") 30 300 120 i.metadata.tempo).1 =
          ["metadata" ++ ".tempo"] := by
        rw [h]
        show reqBound ("metadata" ++ ".tempo") 30 300 301 = _
        rw [reqBound_fail (by omega)]
      have h2 : ("metadata.tempo" : String) = "metadata" ++ ".tempo" := by decide
      show "metadata.tempo" ∈
        (defBound ("metadata" ++ ".tempo") 30 300 120 i.metadata.tempo).1 ++
        (match i.metadata.timeSignature with
         | none => (([] : List String), ({ beats := 4, beatType := 4 } : TimeSignature))
         | some t => validateTimeSignature ("metadata" ++ ".timeSignature") t).1
      rw [h1, h2]
      exact List.mem_append_left _ (List.mem_singleton_self _)
    have hs : "metadata.tempo" ∈ songErrors i := by
      rw [songErrors_def]
      exact List.mem_append_left _ (List.mem_append_left _ hm)
    exact ⟨by rw [validateSong, if_neg (List.ne_nil_of_mem hs)], hs⟩
  · intro ti mi bi ni n hat hv0
    rcases Option.bind_eq_some.mp hat with ⟨t, ht, hat2⟩
    rcases Option.bind_eq_some.mp hat2 with ⟨m, hm, hat3⟩
    rcases Option.bind_eq_some.mp hat3 with ⟨b, hb, hn⟩
    have h1 : notePath ti mi bi ni ++ ".velocity" ∈
        (validateNote (notePath ti mi bi ni) n).1 :=
      noteVelocityErr_mem _ n hv0
    have h2 : notePath ti mi bi ni ++ ".velocity" ∈
        (validateBeat (trackPath ti ++ ".measures" ++ "." ++ Nat.repr mi ++
          ".beats" ++ "." ++ Nat.repr bi) b).1 :=
      beatErr_mem _ b _ ni n hn h1
    have h3 : notePath ti mi bi ni ++ ".velocity" ∈
        (validateMeasure (trackPath ti ++ ".measures" ++ "." ++ Nat.repr mi) m).1 :=
      measureErr_mem _ m _ bi b hb h2
    have h4 : notePath ti mi bi ni ++ ".velocity" ∈
        (validateTrack (trackPath ti) t).1 :=
      trackErr_mem _ t _ mi m hm h3
    have h5 : notePath ti mi bi ni ++ ".velocity" ∈
        (validateList validateTrack "tracks" 0 i.tracks).1 :=
      validateList_mem_errs validateTrack "tracks" i.tracks 0 ti t _ ht
        (by rw [Nat.zero_add]; exact h4)
    have hs : notePath ti mi bi ni ++ ".velocity" ∈ songErrors i := by
      rw [songErrors_def]
      exact List.mem_append_right _ h5
    exact ⟨by rw [validateSong, if_neg (List.ne_nil_of_mem hs)], hs⟩

/-- Witness for C9: the concrete inputs with tempo 301 and with a zero note
velocity both fail validation with the offending field path reported. -/
theorem validator_rejects_out_of_range_witness :
    tempo301Input.metadata.tempo = some 301 ∧
    (validateSong tempo301Input = Except.error (songErrors tempo301Input) ∧
       "metadata.tempo" ∈ songErrors tempo301Input) ∧
    noteInputAt velocityZeroInput 0 0 0 0 =
      some { minimalNoteInput with velocity := some 0 } ∧
    (validateSong velocityZeroInput = Except.error (songErrors velocityZeroInput) ∧
       notePath 0 0 0 0 ++ ".velocity" ∈ songErrors velocityZeroInput) :=
  ⟨rfl, (validator_rejects_out_of_range tempo301Input).1 rfl, rfl,
   (validator_rejects_out_of_range velocityZeroInput).2 0 0 0 0
     { minimalNoteInput with velocity := some 0 } rfl rfl⟩

/-! ## Resolver and export-route scenarios -/

/-- Claim C1 (refuted at the failing input — code bug): the claim says the
instruction "generate the gp5 file" always sets `readyForExport`; in the
code, the export-intent regex `generate\s*\.?gp5|export|generate file|create
gp5` does not match that phrase (the word "the" breaks every alternative), so
on a song whose flag is false the resolver leaves `readyForExport` false.
Phrases the regex does cover, such as "generate gp5 file", do set the
intent. -/
theorem generate_the_gp5_file_not_ready :
    exportIntent "generate the gp5 file" = false ∧
    (applyMessageToSong emptySong "generate the gp5 file").song.readyForExport
      = false ∧
    exportIntent "generate gp5 file" = true ∧
    emptySong.readyForExport = false := by
  refine ⟨by decide, by decide, by decide, rfl⟩

/-- Claim C2 (refuted at the failing input — code bug): the export route
validates the posted body and forwards it to the external writer unchanged;
`ensureMinimumSong` is never invoked on this path, so the schema-valid empty
song (zero tracks) reaches the writer with zero tracks, although
`ensureMinimumSong` would have repaired it to one default track. -/
theorem export_route_forwards_empty_track_song :
    gp5ExportForwardedSong createEmptySongInput = Except.ok emptySong ∧
    emptySong.tracks = [] ∧
    (ensureMinimumSong emptySong).tracks.length = 1 := by
  refine ⟨rfl, rfl, by decide⟩

/-- Claim C8: the instruction "140 bpm song in the key of D minor with guitar
and drums" against the empty song yields tempo 140, key signature "D minor",
a Guitar track and a Drums track, and a follow-up list that no longer asks
about tempo or key but still asks about measures (none exist yet). -/
theorem resolver_fallback_scenario :
    (applyMessageToSong emptySong
      "140 bpm song in the key of D minor with guitar and drums").song.metadata.tempo
      = 140 ∧
    (applyMessageToSong emptySong
      "140 bpm song in the key of D minor with guitar and drums").song.metadata.keySignature
      = "D minor" ∧
    (applyMessageToSong emptySong
      "140 bpm song in the key of D minor with guitar and drums").song.tracks.any
      (fun t => t.instrument == "Guitar") = true ∧
    (applyMessageToSong emptySong
      "140 bpm song in the key of D minor with guitar and drums").song.tracks.any
      (fun t => t.isDrums) = true ∧
    (applyMessageToSong emptySong
      "140 bpm song in the key of D minor with guitar and drums").followUps.contains
      "What tempo should we use? You can reply like '140 bpm'." = false ∧
    (applyMessageToSong emptySong
      "140 bpm song in the key of D minor with guitar and drums").followUps.contains
      "What key should the song be in?" = false ∧
    (applyMessageToSong emptySong
      "140 bpm song in the key of D minor with guitar and drums").followUps.contains
      "How many measures should I draft to start?" = true ∧
    (applyMessageToSong emptySong
      "140 bpm song in the key of D minor with guitar and drums").song.tracks.all
      (fun t => t.measures.isEmpty) = true := by
  refine ⟨by decide, by decide, by decide, by decide, by decide, by decide,
    by decide, by decide⟩

end AiGuitar
